import Mathlib

/-!
Shallow embedding of the GTR Manager process supervisor (`src/index.js`).

The registry file `~/.gtr-manager/processes.json` holds an ordered collection
of process records; every command reads it, transforms it, and writes it back.
We model the registry as a `List ProcessRecord` and each command as a pure
function over it.  External effects are supplied as explicit parameters:

* the filesystem check `fs.existsSync` becomes a `Bool` (or `String → Bool`)
  argument,
* `child_process.spawn` becomes an `Option Nat` (the pid, `none` when spawn
  throws),
* `kill` / `kill -9` success becomes `Nat → Bool` oracles,
* wall-clock timestamps (`new Date().toISOString()`) become a `Nat` argument,
* `path.resolve` is modelled as the identity (all script paths in play are
  already absolute strings).

Asynchronous `exec` callbacks are modelled as running to completion, in
program order, before the operation's final registry value is observed.

One aliasing fact of the source is modelled faithfully: `stopGTR` reads the
registry into `processes`, but obtains the matched record from
`findProcess(identifier)`, which performs its *own* `readProcesses()` — a
separate `JSON.parse` producing distinct objects.  Mutating that record
therefore never changes the `processes` array that `writeProcesses(processes)`
persists, so the synchronous `status = 'stopping'` / `status = 'stopped'`
assignments in `stopGTR` are never written to disk.  Only the asynchronous
kill callbacks, which re-read the file and update by `id`, persist a status
change.
-/

namespace GTRManager

/-- Process status enumeration used by the source (`'online'`, `'stopping'`,
`'stopped'`). -/
inductive Status where
  | online
  | stopping
  | stopped
deriving DecidableEq, Repr

/-- One entry of `processes.json`, mirroring the object literal built in
`startGTR` (src/index.js lines 121-136).  Timestamps are `Nat`s; `createdAt`
is an `Option` because the source can store `undefined` there (restart copies
`options.createdAt` verbatim); `pid` is an `Option` because the source guards
`if (process.pid)`.  CPU/memory are rationals standing in for the JS floats
(no float arithmetic is relevant to any claim). -/
structure ProcessRecord where
  id : Nat
  name : String
  pid : Option Nat
  script : String
  logFile : String
  errorLogFile : String
  status : Status
  instances : Int
  restarts : Nat
  memory : Rat
  cpu : Rat
  env : List (String × String)
  createdAt : Option Nat
  updatedAt : Nat
deriving DecidableEq, Repr

/-- The persisted registry: ordered collection of records. -/
abbrev Registry := List ProcessRecord

/-- Value of the longest digit prefix of a character list; `none` when the
list does not begin with a digit (the `NaN` case of `parseInt`). -/
def digitsVal (cs : List Char) : Option Nat :=
  let ds := cs.takeWhile Char.isDigit
  if ds.isEmpty then none
  else some (ds.foldl (fun a c => a * 10 + (c.toNat - 48)) 0)

/-- JavaScript `parseInt(s, 10)`: skip leading whitespace, optional sign,
then the longest digit prefix; `none` models `NaN`. -/
def parseIntJS (s : String) : Option Int :=
  match s.data.dropWhile Char.isWhitespace with
  | '-' :: rest => (digitsVal rest).map (fun n => -(n : Int))
  | '+' :: rest => (digitsVal rest).map (fun n => (n : Int))
  | rest => (digitsVal rest).map (fun n => (n : Int))

/-- An identifier as passed around by the source: the CLI hands `findProcess`
a string, while internal callers (`restart`, `delete`) pass the numeric
`process.id`.  JS strict equality `p.name === identifier` can only succeed
when the identifier is itself a string. -/
inductive Ident where
  | str (s : String)
  | num (n : Nat)
deriving DecidableEq, Repr

/-- `parseInt(identifier, 10)` applied to either shape of identifier
(`parseInt` of a JS number is the number itself for the naturals in play). -/
def parseIdent : Ident → Option Int
  | .str s => parseIntJS s
  | .num n => some (n : Int)

/-- The `p.name === identifier` comparison: strict equality, so a numeric
identifier never equals a string name. -/
def identNameEq (p : ProcessRecord) : Ident → Bool
  | .str s => p.name == s
  | .num _ => false

/-- The `p.id === num` comparison (`num` is `NaN` when parsing failed, and
`NaN === x` is false). -/
def idMatch (num : Option Int) (p : ProcessRecord) : Bool :=
  match num with
  | some n => ((p.id : Int) == n)
  | none => false

/-- The `!isNaN(num) && p.pid === num` comparison. -/
def pidMatch (num : Option Int) (p : ProcessRecord) : Bool :=
  match num, p.pid with
  | some n, some q => ((q : Int) == n)
  | _, _ => false

/-- Predicate of the `processes.find` callback in `findProcess`
(src/index.js lines 76-80). -/
def matchesIdent (i : Ident) (p : ProcessRecord) : Bool :=
  idMatch (parseIdent i) p || identNameEq p i || pidMatch (parseIdent i) p

/-- `findProcess(identifier)` (src/index.js lines 70-81): first record, in
registry order, matching by id, name, or pid. -/
def findProcess (reg : Registry) (i : Ident) : Option ProcessRecord :=
  reg.find? (matchesIdent i)

/-- Membership test backing `generateId`'s `existingIds.has(id)`. -/
def idUsed (reg : Registry) (n : Nat) : Bool :=
  reg.any (fun p => p.id == n)

/-- Fuel-indexed rendering of `generateId`'s `while (existingIds.has(id)) id++`
loop.  The source loop is unbounded; `reg.length + 1` steps always suffice
because a list of `reg.length` records cannot use all of `0..reg.length`. -/
def genIdAux (reg : Registry) : Nat → Nat → Nat
  | 0, cand => cand
  | fuel + 1, cand =>
    if idUsed reg cand then genIdAux reg fuel (cand + 1) else cand

/-- `generateId()` (src/index.js lines 57-67): the smallest non-negative
integer not currently used as a record id. -/
def generateId (reg : Registry) : Nat :=
  genIdAux reg (reg.length + 1) 0

/-- Failure modes of `startGTR`: the early-return `null` paths. -/
inductive StartError where
  | scriptMissing
  | alreadyRunning
  | spawnFailed
deriving DecidableEq, Repr

/-- The `options` bag handed to `startGTR`.  All fields may be `undefined`
in JS, hence `Option`s. -/
structure StartOptions where
  instances : Option Int := none
  env : Option (List (String × String)) := none
  restarts : Option Nat := none
  createdAt : Option Nat := none
deriving DecidableEq, Repr

/-- `parseInt(options.instances, 10) || 1`: an unparseable (`NaN`) or zero
value falls back to 1. -/
def normInstances : Option Int → Int
  | none => 1
  | some n => if n == 0 then 1 else n

/-- The log directory constant `LOG_DIR` (a fixed path under the user's home
directory). -/
def LOG_DIR : String := ".gtr-manager/logs"

/-- `path.join(LOG_DIR, name + '.log')`. -/
def mkLogFile (name : String) : String := LOG_DIR ++ "/" ++ name ++ ".log"

/-- `path.join(LOG_DIR, name + '-error.log')`. -/
def mkErrorLogFile (name : String) : String := LOG_DIR ++ "/" ++ name ++ "-error.log"

/-- The `processInfo` object literal built in `startGTR`
(src/index.js lines 121-136). -/
def mkProcessInfo (name script : String) (o : StartOptions) (existingId : Option Nat)
    (allocId : Nat) (pid : Nat) (now : Nat) : ProcessRecord :=
  { id := allocId
    name := name
    pid := some pid
    script := script
    logFile := mkLogFile name
    errorLogFile := mkErrorLogFile name
    status := .online
    instances := normInstances o.instances
    restarts := match existingId with
      | some _ => o.restarts.getD 0 + 1
      | none => 0
    memory := 0
    cpu := 0
    env := o.env.getD []
    createdAt := match existingId with
      | some _ => o.createdAt
      | none => some now
    updatedAt := now }

/-- `startGTR(name, script, options, existingId)` (src/index.js lines 84-148).
Checks script existence, then the duplicate-online-name guard, then spawns;
on success appends the new record to the registry and returns its id.  An
error return models the `return null` paths, on which nothing is written. -/
def startGTR (reg : Registry) (name script : String) (o : StartOptions)
    (existingId : Option Nat) (scriptExists : Bool) (spawnPid : Option Nat)
    (now : Nat) : Except StartError (Registry × Nat) :=
  if !scriptExists then .error .scriptMissing
  else if reg.any (fun p => p.name == name && p.status == .online) then
    .error .alreadyRunning
  else
    match spawnPid with
    | none => .error .spawnFailed
    | some pid =>
      let id := match existingId with
        | some i => i
        | none => generateId reg
      .ok (reg ++ [mkProcessInfo name script o existingId id pid now], id)

/-- OS termination requests issued by `stopGTR` (`kill` and `kill -9`). -/
inductive KillSig where
  | graceful (pid : Nat)
  | forced (pid : Nat)
deriving DecidableEq, Repr

/-- Result of one `stopGTR` invocation: the boolean the function returns, the
registry contents once all of its `exec` callbacks have settled, and the
termination signals it issued. -/
structure StopOutcome where
  result : Bool
  registry : Registry
  signals : List KillSig
deriving DecidableEq, Repr

/-- JS truthiness of `process.pid`: `undefined`/`null`/`0` are falsy. -/
def pidTruthy : Option Nat → Bool
  | none => false
  | some n => n != 0

/-- Replace the element at a given position (out-of-range indices leave the
list unchanged, as with a `-1` from `findIndex` guarded by the source). -/
def updateAt : Registry → Nat → (ProcessRecord → ProcessRecord) → Registry
  | [], _, _ => []
  | p :: rest, 0, f => f p :: rest
  | p :: rest, n + 1, f => p :: updateAt rest n f

/-- The kill-callback body of `stopGTR` (src/index.js lines 173-189): re-read
the registry, locate the record by id, set its status to `'stopped'`, stamp
`updatedAt`, and write. -/
def setStoppedById (reg : Registry) (i : Nat) (now : Nat) : Registry :=
  match reg.findIdx? (fun p => p.id == i) with
  | none => reg
  | some ix => updateAt reg ix (fun p => { p with status := .stopped, updatedAt := now })

/-- `stopGTR(identifier)` (src/index.js lines 151-204).  The matched record is
a separate parse from the `processes` array (see module comment), so the
synchronous status mutations are lost: the first `writeProcesses(processes)`
persists `reg` unchanged, and only the kill callbacks — which re-read and
update by id — persist `'stopped'`.  When `process.pid` is falsy, no signal
is sent at all and the final write again persists `reg` unchanged. -/
def stopGTR (reg : Registry) (i : Ident) (killOk forceKillOk : Nat → Bool)
    (now : Nat) : StopOutcome :=
  match findProcess reg i with
  | none => { result := false, registry := reg, signals := [] }
  | some p =>
    if pidTruthy p.pid then
      let pid := p.pid.getD 0
      if killOk pid then
        { result := true, registry := setStoppedById reg p.id now
          signals := [.graceful pid] }
      else if forceKillOk pid then
        { result := true, registry := setStoppedById reg p.id now
          signals := [.graceful pid, .forced pid] }
      else
        { result := true, registry := reg
          signals := [.graceful pid, .forced pid] }
    else
      { result := true, registry := reg, signals := [] }

/-- Remove the record with the given id, via `findIndex` + `splice(ix, 1)`;
the guarded call sites skip the splice when `findIndex` returns `-1`. -/
def spliceOutById (reg : Registry) (i : Nat) : Registry :=
  match reg.findIdx? (fun p => p.id == i) with
  | none => reg
  | some ix => reg.eraseIdx ix

/-- The fixed `setTimeout` delay of the restart command (src/index.js
line 389): the continuation runs 2000 ms after `stopGTR`, unconditionally. -/
def RESTART_DELAY_MS : Nat := 2000

/-- The `setTimeout` continuation of the restart command (src/index.js lines
363-389), applied to the registry contents `regT` observed when the fixed
2000 ms delay fires and to the record `p0` captured by the closure before the
stop.  It checks only that a record with `p0.id` is still present — never its
status — then removes it and calls `startGTR` with `p0`'s name, script,
instances, env, restarts, and createdAt, reusing `p0.id`.  Returns `none` for
the "process info was lost during restart" path; on a `startGTR` error the
old record has already been removed and written. -/
def restartTimeout (regT : Registry) (p0 : ProcessRecord) (scriptExists : Bool)
    (spawnPid : Option Nat) (now : Nat) :
    Option (Registry × Except StartError Nat) :=
  match regT.find? (fun p => p.id == p0.id) with
  | none => none
  | some _ =>
    let reg' := spliceOutById regT p0.id
    match startGTR reg' p0.name p0.script
        { instances := some p0.instances, env := some p0.env
          restarts := some p0.restarts, createdAt := p0.createdAt }
        (some p0.id) scriptExists spawnPid now with
    | .ok (reg'', id) => some (reg'', .ok id)
    | .error e => some (reg', .error e)

/-- The immediate-removal branch of the delete command (src/index.js lines
422-427): resolve the identifier, then `findIndex` by id and `splice(ix, 1)`
(an unguarded `-1` would splice off the last element, which we render
faithfully although it is unreachable for a registry in which `findProcess`
succeeded).  `none` is the `NotFound` path. -/
def deleteNow (reg : Registry) (i : Ident) : Option Registry :=
  match findProcess reg i with
  | none => none
  | some p =>
    match reg.findIdx? (fun q => q.id == p.id) with
    | some ix => some (reg.eraseIdx ix)
    | none => some (reg.eraseIdx (reg.length - 1))

/-- The prune command (src/index.js lines 716-728): keep exactly the
`'online'` records; when nothing would be removed, return without writing.
The second component is the count removed. -/
def prune (reg : Registry) : Registry × Nat :=
  let active := reg.filter (fun p => p.status == .online)
  if active.length == reg.length then (reg, 0)
  else (active, reg.length - active.length)

/-- The save command (src/index.js lines 665-667): the snapshot written to
`ecosystem.json` is the full current registry, verbatim. -/
def saveEcosystem (reg : Registry) : Registry := reg

/-- The `forEach` body of the resurrect command (src/index.js lines 695-705),
threading the registry through the sequence of `startGTR` calls.  `fsExists`
models `fs.existsSync`; `spawn k` is the pid produced for the k-th attempted
start.  An entry whose script is missing is skipped (and reported); a failed
`startGTR` leaves the registry as it was and continues with the next entry. -/
def resurrectGo (fsExists : String → Bool) (spawn : Nat → Option Nat) (now : Nat) :
    Registry → List ProcessRecord → Nat → Registry
  | reg, [], _ => reg
  | reg, e :: rest, k =>
    if fsExists e.script then
      match startGTR reg e.name e.script
          { instances := some e.instances, env := some e.env }
          none (fsExists e.script) (spawn k) now with
      | .ok (reg', _) => resurrectGo fsExists spawn now reg' rest (k + 1)
      | .error _ => resurrectGo fsExists spawn now reg rest (k + 1)
    else
      resurrectGo fsExists spawn now reg rest (k + 1)

/-- The resurrect command (src/index.js lines 677-709): no snapshot file or an
empty snapshot is a no-op; otherwise each saved entry whose script still
exists gets a `startGTR` with that entry's name, script, instances and env
(and `existingId = null`, so a fresh id and createdAt). -/
def resurrect (snapExists : Bool) (snap : Registry) (reg : Registry)
    (fsExists : String → Bool) (spawn : Nat → Option Nat) (now : Nat) : Registry :=
  if !snapExists then reg
  else if snap.isEmpty then reg
  else resurrectGo fsExists spawn now reg snap 0

/-- Environment of one `monitorProcesses` pass: `alive pid` models
`ps -p pid -o pid=` succeeding with non-empty output; `usage pid` models the
`ps -p pid -o %cpu,%mem` query, `none` standing for an `exec` error, empty
output, or output with no data row below the header (all of which the source
ignores alike). -/
structure PollEnv where
  alive : Nat → Bool
  usage : Nat → Option (Rat × Rat)
  now : Nat

/-- Liveness of an optional pid: `ps -p undefined` errors out, so an absent
pid reads as dead. -/
def pidAlive (E : PollEnv) : Option Nat → Bool
  | none => false
  | some pid => E.alive pid

/-- The 30-second grace period for `'stopping'` records (src/index.js
line 243). -/
def GRACE_PERIOD_MS : Nat := 30000

/-- The per-record body of `monitorProcesses` (src/index.js lines 231-270),
with the `exec` callbacks modelled as running to completion.  Only `'online'`
and `'stopping'` records are touched; a dead pid forces `'stopped'`; a
`'stopping'` record past the grace period is force-killed and marked
`'stopped'` (the kill-9 callback runs regardless of the kill's own outcome,
whose side effect on the OS is not claim-relevant); an `'online'` live record
gets fresh cpu/memory only when the usage query yields a data row. -/
def pollRecord (E : PollEnv) (p : ProcessRecord) : ProcessRecord :=
  if p.status == .online || p.status == .stopping then
    if !(pidAlive E p.pid) then
      { p with status := .stopped, updatedAt := E.now }
    else if p.status == .stopping then
      if E.now - p.updatedAt > GRACE_PERIOD_MS then
        { p with status := .stopped, updatedAt := E.now }
      else p
    else
      match p.pid with
      | some pid =>
        match E.usage pid with
        | some cm => { p with cpu := cm.1, memory := cm.2, updatedAt := E.now }
        | none => p
      | none => p
  else p

/-- `monitorProcesses()` (src/index.js lines 227-276): one pass over every
record. -/
def monitorProcesses (E : PollEnv) (reg : Registry) : Registry :=
  reg.map (pollRecord E)

/-- Inputs of one CLI-level start (name, script, options, and the external
effects of that invocation). -/
structure StartCall where
  name : String
  script : String
  opts : StartOptions
  scriptExists : Bool
  spawnPid : Option Nat
  now : Nat

/-- A sequence of start commands, each with `existingId = null`; `none` as
soon as one of them fails. -/
def runStarts : Registry → List StartCall → Option Registry
  | reg, [] => some reg
  | reg, c :: cs =>
    match startGTR reg c.name c.script c.opts none c.scriptExists c.spawnPid c.now with
    | .ok (reg', _) => runStarts reg' cs
    | .error _ => none

/-- Pairwise-distinct record ids. -/
def idsUnique (reg : Registry) : Prop :=
  (reg.map (fun p => p.id)).Nodup

/-- Declarative reading of the `findProcess` predicate: the identifier matches
a record when its integer parse equals the record's id or pid, or when it is
a string equal to the record's name. -/
def specMatches (i : Ident) (p : ProcessRecord) : Prop :=
  (∃ n, parseIdent i = some n ∧
    ((p.id : Int) = n ∨ ∃ q, p.pid = some q ∧ (q : Int) = n)) ∨
  (∃ s, i = Ident.str s ∧ p.name = s)

/-- A registry record whose name is the numeric string "7" but whose id and
pid are both different from 7, exhibiting name-matching of an
integer-parsing identifier. -/
def numNameRec : ProcessRecord :=
  { id := 0, name := "7", pid := some 100, script := "/a.js"
    logFile := mkLogFile "7", errorLogFile := mkErrorLogFile "7"
    status := .online, instances := 1, restarts := 0, memory := 0, cpu := 0
    env := [], createdAt := some 1, updatedAt := 1 }

/-- An `'online'` record with no pid, as `stopGTR`'s `if (process.pid)` else
branch expects. -/
def noPidRec : ProcessRecord :=
  { id := 0, name := "a", pid := none, script := "/a.js"
    logFile := mkLogFile "a", errorLogFile := mkErrorLogFile "a"
    status := .online, instances := 1, restarts := 0, memory := 0, cpu := 0
    env := [], createdAt := some 1, updatedAt := 1 }

/-- A record in the `'stopping'` state, as left by a graceful shutdown that
has not finished when the restart command's 2000 ms timer fires. -/
def stoppingRec : ProcessRecord :=
  { id := 0, name := "app", pid := some 42, script := "/app.js"
    logFile := mkLogFile "app", errorLogFile := mkErrorLogFile "app"
    status := .stopping, instances := 1, restarts := 3, memory := 0, cpu := 0
    env := [], createdAt := some 100, updatedAt := 200 }

/-- An `'online'` record named "a", used both as a live registry entry and as
a saved snapshot entry. -/
def savedRecA : ProcessRecord :=
  { id := 0, name := "a", pid := some 10, script := "/a.js"
    logFile := mkLogFile "a", errorLogFile := mkErrorLogFile "a"
    status := .online, instances := 1, restarts := 0, memory := 0, cpu := 0
    env := [], createdAt := some 1, updatedAt := 1 }

/-- Record with id 0 for the id-reuse demonstration. -/
def demoRecX : ProcessRecord := { savedRecA with id := 0, name := "x" }

/-- Record with id 1 for the id-reuse demonstration. -/
def demoRecY : ProcessRecord := { savedRecA with id := 1, name := "y" }

lemma matchesIdent_iff (i : Ident) (p : ProcessRecord) :
    matchesIdent i p = true ↔ specMatches i p := by
  unfold matchesIdent specMatches idMatch pidMatch identNameEq
  cases i with
  | str s =>
    simp only [parseIdent]
    cases hp : parseIntJS s with
    | none =>
      cases hq : p.pid <;> simp [beq_iff_eq]
    | some n =>
      cases hq : p.pid with
      | none => simp [beq_iff_eq, hq]
      | some q =>
        simp [beq_iff_eq, hq]
        tauto
  | num n =>
    simp only [parseIdent]
    cases hq : p.pid with
    | none => simp [beq_iff_eq, hq]
    | some q => simp [beq_iff_eq, hq]

lemma idUsed_false_iff (reg : Registry) (n : Nat) :
    idUsed reg n = false ↔ ∀ p ∈ reg, p.id ≠ n := by
  simp [idUsed, List.any_eq_false, beq_iff_eq]

lemma idUsed_true_iff (reg : Registry) (n : Nat) :
    idUsed reg n = true ↔ ∃ p ∈ reg, p.id = n := by
  simp [idUsed, List.any_eq_true, beq_iff_eq]

lemma genIdAux_spec (reg : Registry) :
    ∀ fuel cand, (∃ j, cand ≤ j ∧ j < cand + fuel ∧ idUsed reg j = false) →
      idUsed reg (genIdAux reg fuel cand) = false ∧
      cand ≤ genIdAux reg fuel cand ∧
      ∀ m, cand ≤ m → m < genIdAux reg fuel cand → idUsed reg m = true := by
  intro fuel
  induction fuel with
  | zero =>
    intro cand hex
    obtain ⟨j, h1, h2, _⟩ := hex
    omega
  | succ f ih =>
    intro cand hex
    by_cases hc : idUsed reg cand = true
    · have hstep : genIdAux reg (f + 1) cand = genIdAux reg f (cand + 1) := by
        simp [genIdAux, hc]
      rw [hstep]
      obtain ⟨j, h1, h2, h3⟩ := hex
      have hj : cand + 1 ≤ j := by
        rcases Nat.eq_or_lt_of_le h1 with heq | hlt
        · rw [← heq, hc] at h3
          cases h3
        · omega
      have hrec := ih (cand + 1) ⟨j, hj, by omega, h3⟩
      refine ⟨hrec.1, by omega, ?_⟩
      intro m hm1 hm2
      rcases Nat.eq_or_lt_of_le hm1 with heq | hlt
      · rw [← heq]
        exact hc
      · exact hrec.2.2 m (by omega) hm2
    · have hc' : idUsed reg cand = false := by
        cases h : idUsed reg cand
        · rfl
        · exact absurd h hc
      have hstep : genIdAux reg (f + 1) cand = cand := by
        simp [genIdAux, hc']
      rw [hstep]
      exact ⟨hc', le_refl _, fun m hm1 hm2 => absurd hm1 (by omega)⟩

lemma exists_unused_id (reg : Registry) :
    ∃ j, j ≤ reg.length ∧ idUsed reg j = false := by
  by_contra hcon
  push_neg at hcon
  have hall : ∀ j, j ≤ reg.length → idUsed reg j = true := by
    intro j hj
    cases h : idUsed reg j
    · exact absurd h (hcon j hj)
    · rfl
  have hsub : Finset.range (reg.length + 1) ⊆ (reg.map (fun p => p.id)).toFinset := by
    intro j hj
    rw [Finset.mem_range] at hj
    have hj' := (idUsed_true_iff reg j).mp (hall j (by omega))
    obtain ⟨p, hp, hpe⟩ := hj'
    rw [List.mem_toFinset, List.mem_map]
    exact ⟨p, hp, hpe⟩
  have h1 := Finset.card_le_card hsub
  rw [Finset.card_range] at h1
  have h2 : (reg.map (fun p => p.id)).toFinset.card ≤ reg.length := by
    calc (reg.map (fun p => p.id)).toFinset.card
        ≤ (reg.map (fun p => p.id)).length := List.toFinset_card_le _
      _ = reg.length := List.length_map _ _
  omega

lemma generateId_spec (reg : Registry) :
    idUsed reg (generateId reg) = false ∧
    ∀ m, m < generateId reg → idUsed reg m = true := by
  obtain ⟨j, hj1, hj2⟩ := exists_unused_id reg
  have h := genIdAux_spec reg (reg.length + 1) 0 ⟨j, Nat.zero_le _, by omega, hj2⟩
  exact ⟨h.1, fun m hm => h.2.2 m (Nat.zero_le _) hm⟩

lemma startGTR_ok_shape {reg : Registry} {name script : String} {o : StartOptions}
    {eid : Option Nat} {se : Bool} {sp : Option Nat} {now : Nat}
    {reg' : Registry} {i : Nat}
    (h : startGTR reg name script o eid se sp now = .ok (reg', i)) :
    se = true ∧
    reg.any (fun p => p.name == name && p.status == .online) = false ∧
    ∃ pid, sp = some pid ∧
      reg' = reg ++ [mkProcessInfo name script o eid i pid now] ∧
      (eid = none → i = generateId reg) ∧
      (∀ j, eid = some j → i = j) := by
  unfold startGTR at h
  cases se with
  | false => simp at h
  | true =>
    cases hany : reg.any (fun p => p.name == name && p.status == .online) with
    | true => rw [hany] at h; simp at h
    | false =>
      rw [hany] at h
      cases sp with
      | none => simp at h
      | some pid =>
        cases eid with
        | none =>
          simp only [Bool.not_true, Bool.false_eq_true, if_false, Except.ok.injEq,
            Prod.mk.injEq] at h
          refine ⟨rfl, rfl, pid, rfl, ?_, fun _ => h.2.symm, fun j hj => by cases hj⟩
          rw [← h.2, ← h.1]
        | some j =>
          simp only [Bool.not_true, Bool.false_eq_true, if_false, Except.ok.injEq,
            Prod.mk.injEq] at h
          refine ⟨rfl, rfl, pid, rfl, ?_, ?_, ?_⟩
          · rw [← h.2, ← h.1]
          · intro hn
            cases hn
          · intro j' hj'
            cases hj'
            exact h.2.symm

lemma filter_length_eq_self {α : Type} (p : α → Bool) :
    ∀ l : List α, (l.filter p).length = l.length → l.filter p = l := by
  intro l
  induction l with
  | nil => intro _; rfl
  | cons a t ih =>
    intro h
    cases hp : p a with
    | true =>
      rw [List.filter_cons_of_pos hp] at h ⊢
      simp only [List.length_cons, Nat.add_right_cancel_iff] at h
      rw [ih h]
    | false =>
      rw [List.filter_cons_of_neg (by simp [hp])] at h
      have hle := List.length_filter_le p t
      simp only [List.length_cons] at h
      omega

lemma idsUnique_append_fresh {reg : Registry} {r : ProcessRecord}
    (hu : idsUnique reg) (hf : idUsed reg r.id = false) :
    idsUnique (reg ++ [r]) := by
  unfold idsUnique at *
  rw [List.map_append, List.nodup_append]
  refine ⟨hu, List.nodup_singleton _, ?_⟩
  intro a ha hb
  rw [List.map_singleton, List.mem_singleton] at hb
  subst hb
  rw [idUsed_false_iff] at hf
  rw [List.mem_map] at ha
  obtain ⟨p, hp, hpe⟩ := ha
  exact hf p hp hpe

lemma resurrectGo_appends (fs : String → Bool) (sp : Nat → Option Nat) (now : Nat) :
    ∀ snap : List ProcessRecord, ∀ reg : Registry, ∀ k : Nat,
      ∃ news, resurrectGo fs sp now reg snap k = reg ++ news ∧
        ∀ r ∈ news, r.status = .online ∧ r.restarts = 0 ∧ r.createdAt = some now ∧
          ∃ e ∈ snap, fs e.script = true ∧ r.name = e.name ∧ r.script = e.script ∧
            r.env = e.env ∧ r.instances = normInstances (some e.instances) := by
  intro snap
  induction snap with
  | nil =>
    intro reg k
    exact ⟨[], by simp [resurrectGo], by simp⟩
  | cons e rest ih =>
    intro reg k
    cases hfs : fs e.script with
    | false =>
      obtain ⟨news, hn, hP⟩ := ih reg (k + 1)
      refine ⟨news, ?_, ?_⟩
      · rw [resurrectGo, hfs]
        simpa using hn
      · intro r hr
        obtain ⟨h1, h2, h3, e', he', rest'⟩ := hP r hr
        exact ⟨h1, h2, h3, e', List.mem_cons_of_mem _ he', rest'⟩
    | true =>
      cases hst : startGTR reg e.name e.script
          { instances := some e.instances, env := some e.env }
          none true (sp k) now with
      | error err =>
        obtain ⟨news, hn, hP⟩ := ih reg (k + 1)
        refine ⟨news, ?_, ?_⟩
        · rw [resurrectGo, hfs]
          simp only [if_true]
          rw [hst]
          exact hn
        · intro r hr
          obtain ⟨h1, h2, h3, e', he', rest'⟩ := hP r hr
          exact ⟨h1, h2, h3, e', List.mem_cons_of_mem _ he', rest'⟩
      | ok pr =>
        obtain ⟨news, hn, hP⟩ := ih pr.1 (k + 1)
        have hshape := startGTR_ok_shape hst
        obtain ⟨-, -, pid, hsp, hreg1, -, -⟩ := hshape
        refine ⟨mkProcessInfo e.name e.script
            { instances := some e.instances, env := some e.env }
            none pr.2 pid now :: news, ?_, ?_⟩
        · rw [resurrectGo, hfs]
          simp only [if_true]
          rw [hst]
          show resurrectGo fs sp now pr.1 rest (k + 1) = _
          rw [hn, hreg1]
          simp
        · intro r hr
          rcases List.mem_cons.mp hr with heq | hmem
          · subst heq
            refine ⟨rfl, rfl, rfl, e, List.mem_cons_self _ _, hfs, rfl, rfl, ?_, rfl⟩
            simp [mkProcessInfo]
          · obtain ⟨h1, h2, h3, e', he', rest'⟩ := hP r hmem
            exact ⟨h1, h2, h3, e', List.mem_cons_of_mem _ he', rest'⟩

/-- C1, counterexample: the identifier "7" parses as the integer 7, matches
neither the id nor the pid of the sole record, and is nevertheless resolved
to that record because its *name* is the string "7" — refuting the claim that
an identifier parsing as an integer is never matched by name. -/
theorem numeric_identifier_matched_by_name :
    parseIntJS "7" = some 7 ∧
    numNameRec.id ≠ 7 ∧
    numNameRec.pid ≠ some 7 ∧
    findProcess [numNameRec] (Ident.str "7") = some numNameRec := by
  exact ⟨by decide, by decide, by decide, by decide⟩

/-- C1, amended: resolution compares an identifier that parses as an integer
against a record's id and pid, and compares every identifier — numeric or
not — against the record's name; the first record in registry order matching
any of these comparisons is returned.  An identifier that does not parse as
an integer is matched only by name, and when no record matches, the
operation fails with NotFound (here: `stopGTR` returns false, persists
nothing, and signals nothing; the other commands share the same
`findProcess` resolver). -/
theorem findProcess_resolution (reg : Registry) (i : Ident) :
    (∀ p, findProcess reg i = some p → p ∈ reg ∧ specMatches i p) ∧
    (findProcess reg i = none → ∀ p ∈ reg, ¬ specMatches i p) ∧
    (∀ p, findProcess reg i = some p → parseIdent i = none →
      ∃ s, i = Ident.str s ∧ p.name = s) ∧
    (∀ killOk forceKillOk now, findProcess reg i = none →
      stopGTR reg i killOk forceKillOk now =
        { result := false, registry := reg, signals := [] }) := by
  refine ⟨?_, ?_, ?_, ?_⟩
  · intro p hp
    exact ⟨List.mem_of_find?_eq_some hp, (matchesIdent_iff i p).mp (List.find?_some hp)⟩
  · intro hn p hp hspec
    have := (List.find?_eq_none.mp hn) p hp
    exact this ((matchesIdent_iff i p).mpr hspec)
  · intro p hp hparse
    have hspec := (matchesIdent_iff i p).mp (List.find?_some hp)
    rcases hspec with ⟨n, hn, -⟩ | ⟨s, hs, hname⟩
    · rw [hparse] at hn
      cases hn
    · exact ⟨s, hs, hname⟩
  · intro killOk forceKillOk now hn
    unfold stopGTR
    rw [hn]

/-- C1, witness: the resolution theorem applied to the numeric-name registry. -/
theorem findProcess_resolution_witness :
    numNameRec ∈ [numNameRec] ∧ specMatches (Ident.str "7") numNameRec :=
  (findProcess_resolution [numNameRec] (Ident.str "7")).1 numNameRec (by rfl)

/-- C2: the restart command's continuation runs after a fixed 2000 ms
`setTimeout` and checks only that a record with the captured id still exists,
never its status.  Evaluated at a registry whose record is still `'stopping'`
when the timer fires, the continuation removes the old record and starts the
fresh one anyway — the removal-and-restart step executes while the status is
`'stopping'`, contradicting the claim that it waits (by polling) for
`'stopped'`. -/
theorem restart_proceeds_while_stopping :
    RESTART_DELAY_MS = 2000 ∧
    stoppingRec.status = Status.stopping ∧
    restartTimeout [stoppingRec] stoppingRec true (some 43) 2200 =
      some ([{ id := 0, name := "app", pid := some 43, script := "/app.js"
               logFile := mkLogFile "app", errorLogFile := mkErrorLogFile "app"
               status := .online, instances := 1, restarts := 4, memory := 0
               cpu := 0, env := [], createdAt := some 100, updatedAt := 2200 }],
            Except.ok 0) := by
  exact ⟨rfl, rfl, by rfl⟩

/-- C9: stopping an online record that has no pid.  The source prints
"marked as stopped" and returns success, but the record it mutated is a
separate parse of the registry file, so `writeProcesses(processes)` persists
the registry unchanged: the final persisted status is still `'online'`, not
`'stopped'`.  No termination signal is issued, as the claim says. -/
theorem stop_no_pid_persists_nothing :
    noPidRec.status = Status.online ∧
    noPidRec.pid = none ∧
    stopGTR [noPidRec] (Ident.str "a") (fun _ => true) (fun _ => true) 9 =
      { result := true, registry := [noPidRec], signals := [] } := by
  exact ⟨rfl, rfl, by decide⟩

/-- C3: a successful start with no caller-supplied id allocates the smallest
non-negative integer not used by any current record; consequently any
sequence of successful starts preserves pairwise uniqueness of ids; and a
deleted id is reused by a later start (demonstrated on a two-record registry
whose id-0 record is deleted, after which the allocator hands out 0 again). -/
theorem start_id_allocation :
    (∀ reg name script o se sp now reg' i,
      startGTR reg name script o none se sp now = .ok (reg', i) →
        (∀ p ∈ reg, p.id ≠ i) ∧ (∀ m, m < i → ∃ p ∈ reg, p.id = m)) ∧
    (∀ reg cs reg', idsUnique reg → runStarts reg cs = some reg' → idsUnique reg') ∧
    (deleteNow [demoRecX, demoRecY] (Ident.num 0) = some [demoRecY] ∧
      generateId [demoRecY] = 0) := by
  refine ⟨?_, ?_, by decide, by decide⟩
  · intro reg name script o se sp now reg' i h
    obtain ⟨-, -, pid, -, -, hid, -⟩ := startGTR_ok_shape h
    have hid' : i = generateId reg := hid rfl
    subst hid'
    obtain ⟨h1, h2⟩ := generateId_spec reg
    refine ⟨?_, ?_⟩
    · rw [idUsed_false_iff] at h1
      exact h1
    · intro m hm
      exact (idUsed_true_iff reg m).mp (h2 m hm)
  · intro reg cs
    induction cs generalizing reg with
    | nil =>
      intro reg' hu h
      cases h
      exact hu
    | cons c rest ih =>
      intro reg' hu h
      unfold runStarts at h
      cases hst : startGTR reg c.name c.script c.opts none c.scriptExists
          c.spawnPid c.now with
      | error e =>
        rw [hst] at h
        cases h
      | ok pr =>
        rw [hst] at h
        have hshape := startGTR_ok_shape hst
        obtain ⟨-, -, pid, -, hreg1, hid, -⟩ := hshape
        have hfresh : idUsed reg (mkProcessInfo c.name c.script c.opts none
            pr.2 pid c.now).id = false := by
          have : (mkProcessInfo c.name c.script c.opts none pr.2 pid c.now).id
              = generateId reg := by
            rw [mkProcessInfo]
            exact hid rfl
          rw [this]
          exact (generateId_spec reg).1
        have hu' : idsUnique pr.1 := by
          rw [hreg1]
          exact idsUnique_append_fresh hu hfresh
        exact ih pr.1 reg' hu' h

/-- C3, witness: a single successful start on the empty registry yields a
registry with pairwise-unique ids. -/
theorem start_id_allocation_witness :
    idsUnique [mkProcessInfo "a" "/a.js" {} none 0 5 0] :=
  (start_id_allocation).2.1 [] [⟨"a", "/a.js", {}, true, some 5, 0⟩]
    [mkProcessInfo "a" "/a.js" {} none 0 5 0] List.nodup_nil (by rfl)

/-- C4: a restart continuation that succeeds appends a record reusing the
matched record's id, env, and instances, preserving its createdAt, and
carrying exactly its restarts counter plus one — for every prior value of
that counter.  The `instances ≠ 0` hypothesis reflects that every stored
record has a non-zero instance count (`parseInt(...) || 1`). -/
theorem restart_preserves_identity (regT : Registry) (p0 : ProcessRecord)
    (se : Bool) (sp : Option Nat) (now : Nat) (reg'' : Registry) (i : Nat)
    (hinst : p0.instances ≠ 0)
    (h : restartTimeout regT p0 se sp now = some (reg'', .ok i)) :
    i = p0.id ∧
    reg''.getLast?.map (fun r => (r.id, r.env, r.instances, r.createdAt, r.restarts)) =
      some (p0.id, p0.env, p0.instances, p0.createdAt, p0.restarts + 1) := by
  unfold restartTimeout at h
  cases hf : regT.find? (fun p => p.id == p0.id) with
  | none =>
    rw [hf] at h
    cases h
  | some w =>
    rw [hf] at h
    have h' : (match startGTR (spliceOutById regT p0.id) p0.name p0.script
        { instances := some p0.instances, env := some p0.env
          restarts := some p0.restarts, createdAt := p0.createdAt }
        (some p0.id) se sp now with
      | Except.ok (a, b) => some (a, Except.ok b)
      | Except.error e => some (spliceOutById regT p0.id, Except.error e)) =
      some (reg'', Except.ok i) := h
    cases hst : startGTR (spliceOutById regT p0.id) p0.name p0.script
        { instances := some p0.instances, env := some p0.env
          restarts := some p0.restarts, createdAt := p0.createdAt }
        (some p0.id) se sp now with
    | error e =>
      rw [hst] at h'
      simp at h'
    | ok pr =>
      obtain ⟨r2, i2⟩ := pr
      rw [hst] at h'
      simp only [Option.some.injEq, Prod.mk.injEq, Except.ok.injEq] at h'
      obtain ⟨hreg, hi⟩ := h'
      have hshape := startGTR_ok_shape hst
      obtain ⟨-, -, pid, -, hreg1, -, hsome⟩ := hshape
      have hip : i2 = p0.id := hsome p0.id rfl
      constructor
      · rw [← hi, hip]
      · rw [← hreg, hreg1, List.getLast?_concat]
        simp [mkProcessInfo, normInstances, hip, hinst]

/-- C4, witness: the preservation theorem evaluated on the stopping record
(restarts 3, createdAt 100): the fresh record has restarts 4 and the same
id, env, instances, and createdAt. -/
theorem restart_preserves_identity_witness :
    (0 : Nat) = stoppingRec.id ∧
    ([{ id := 0, name := "app", pid := some 43, script := "/app.js"
        logFile := mkLogFile "app", errorLogFile := mkErrorLogFile "app"
        status := .online, instances := 1, restarts := 4, memory := 0
        cpu := 0, env := [], createdAt := some 100, updatedAt := 2200 }] :
      Registry).getLast?.map
        (fun r => (r.id, r.env, r.instances, r.createdAt, r.restarts)) =
      some (stoppingRec.id, stoppingRec.env, stoppingRec.instances,
        stoppingRec.createdAt, stoppingRec.restarts + 1) :=
  restart_preserves_identity [stoppingRec] stoppingRec true (some 43) 2200 _ 0
    (by decide) (by rfl)

/-- C5, counterexample: with an online record named "a" in the registry, a
start for name "a" whose script does not exist fails with ScriptMissing, not
AlreadyRunning — the script-existence check precedes the duplicate-name
check. -/
theorem duplicate_name_missing_script_start :
    savedRecA.name = "a" ∧
    savedRecA.status = Status.online ∧
    startGTR [savedRecA] "a" "/gone.js" {} none false (some 7) 0 =
      .error .scriptMissing ∧
    StartError.scriptMissing ≠ StartError.alreadyRunning := by
  exact ⟨rfl, rfl, by rfl, by decide⟩

/-- C5, amended: provided the script exists, any start whose name matches an
online record fails with AlreadyRunning; the error return is taken before
anything is spawned or written, so no record is created and the registry is
untouched. -/
theorem start_rejects_duplicate_online_name (reg : Registry) (name script : String)
    (o : StartOptions) (eid : Option Nat) (sp : Option Nat) (now : Nat)
    (hdup : ∃ p ∈ reg, p.name = name ∧ p.status = .online) :
    startGTR reg name script o eid true sp now = .error .alreadyRunning := by
  unfold startGTR
  have hany : reg.any (fun p => p.name == name && p.status == .online) = true := by
    rw [List.any_eq_true]
    obtain ⟨p, hp, h1, h2⟩ := hdup
    exact ⟨p, hp, by simp [h1, h2]⟩
  rw [hany]
  simp

/-- C5, witness: the rejection theorem at a one-record registry with "a"
online. -/
theorem start_rejects_duplicate_online_name_witness :
    startGTR [savedRecA] "a" "/a.js" {} none true (some 7) 0 =
      .error .alreadyRunning :=
  start_rejects_duplicate_online_name [savedRecA] "a" "/a.js" {} none (some 7) 0
    ⟨savedRecA, List.mem_singleton.mpr rfl, rfl, rfl⟩

/-- C6: prune keeps exactly the online records (membership characterization),
is idempotent (pruning a pruned registry removes nothing and reports a count
of zero), and an invocation finding only online records is a no-op returning
count zero rather than an error. -/
theorem prune_removes_non_online_idempotent (reg : Registry) :
    (∀ p, p ∈ (prune reg).1 ↔ p ∈ reg ∧ p.status = Status.online) ∧
    prune (prune reg).1 = ((prune reg).1, 0) ∧
    ((∀ p ∈ reg, p.status = Status.online) → prune reg = (reg, 0)) := by
  have hfst : (prune reg).1 = reg.filter (fun p => p.status == Status.online) := by
    simp only [prune]
    cases hb : (reg.filter (fun p => p.status == Status.online)).length == reg.length with
    | true =>
      simp only [hb, if_true]
      exact (filter_length_eq_self _ reg (beq_iff_eq.mp hb)).symm
    | false =>
      simp [hb]
  have hidem : ∀ X : Registry, (∀ p ∈ X, p.status = Status.online) →
      prune X = (X, 0) := by
    intro X hX
    have hkeep : X.filter (fun p => p.status == Status.online) = X := by
      rw [List.filter_eq_self]
      intro a ha
      simp [hX a ha]
    simp only [prune, hkeep]
    simp
  have hall : ∀ p ∈ (prune reg).1, p.status = Status.online := by
    intro p hp
    rw [hfst, List.mem_filter] at hp
    simpa using hp.2
  refine ⟨?_, hidem (prune reg).1 hall, hidem reg⟩
  intro p
  rw [hfst, List.mem_filter]
  simp

/-- C6, witness: prune of a one-record online registry removes nothing. -/
theorem prune_removes_non_online_idempotent_witness :
    prune [savedRecA] = ([savedRecA], 0) :=
  (prune_removes_non_online_idempotent [savedRecA]).2.2
    (by intro p hp; rw [List.mem_singleton] at hp; rw [hp]; rfl)

/-- C7, counterexample: the snapshot holds one entry (so resurrect is not the
empty no-op case), its script exists, and yet resurrect produces no new
record at all, because a record with the same name is still online and
`startGTR` rejects the duplicate — refuting "exactly one new online record
per saved entry whose script still exists". -/
theorem resurrect_name_still_online_no_new_record :
    savedRecA.status = Status.online ∧
    ([savedRecA] : Registry) ≠ [] ∧
    resurrect true [savedRecA] [savedRecA] (fun _ => true) (fun _ => some 99) 5 =
      [savedRecA] := by
  exact ⟨rfl, by decide, by decide⟩

/-- C7, amended: resurrect on an empty snapshot performs no start; on a
non-empty snapshot it only ever appends records, each appended record being
an online, restarts-zero, freshly-timestamped record carrying the name,
script, env, and (normalized) instances of some snapshot entry whose script
exists; and a snapshot entry whose script exists, whose spawn succeeds, and
whose name is not currently online yields exactly one such new record, with
a freshly allocated id.  Missing-script entries are skipped, never fatal. -/
theorem resurrect_per_entry_behavior :
    (∀ snapExists reg fs sp now,
      resurrect snapExists [] reg fs sp now = reg) ∧
    (∀ snap reg fs sp now, ∃ news,
      resurrect true snap reg fs sp now = reg ++ news ∧
      ∀ r ∈ news, r.status = Status.online ∧ r.restarts = 0 ∧
        r.createdAt = some now ∧
        ∃ e ∈ snap, fs e.script = true ∧ r.name = e.name ∧ r.script = e.script ∧
          r.env = e.env ∧ r.instances = normInstances (some e.instances)) ∧
    (∀ e reg fs sp pid now, fs e.script = true → sp 0 = some pid →
      (∀ p ∈ reg, ¬(p.name = e.name ∧ p.status = Status.online)) →
      resurrect true [e] reg fs sp now =
        reg ++ [mkProcessInfo e.name e.script
          { instances := some e.instances, env := some e.env } none
          (generateId reg) pid now]) := by
  refine ⟨?_, ?_, ?_⟩
  · intro snapExists reg fs sp now
    cases snapExists <;> simp [resurrect]
  · intro snap reg fs sp now
    cases snap with
    | nil => exact ⟨[], by simp [resurrect], by simp⟩
    | cons e rest =>
      obtain ⟨news, hn, hP⟩ := resurrectGo_appends fs sp now (e :: rest) reg 0
      exact ⟨news, by simpa [resurrect] using hn, hP⟩
  · intro e reg fs sp pid now hfs hsp hno
    have hany : reg.any (fun p => p.name == e.name && p.status == Status.online)
        = false := by
      rw [List.any_eq_false]
      intro p hp hcontra
      rw [Bool.and_eq_true] at hcontra
      exact hno p hp ⟨by simpa using hcontra.1, by simpa using hcontra.2⟩
    have hstart : startGTR reg e.name e.script
        { instances := some e.instances, env := some e.env } none true
        (some pid) now =
        .ok (reg ++ [mkProcessInfo e.name e.script
          { instances := some e.instances, env := some e.env } none
          (generateId reg) pid now], generateId reg) := by
      unfold startGTR
      rw [hany]
      simp
    show resurrectGo fs sp now reg [e] 0 = _
    rw [resurrectGo, hfs]
    simp only [if_true]
    rw [hsp, hstart]
    rfl

/-- C7, witness: resurrecting a one-entry snapshot into an empty registry
creates exactly the one fresh online record. -/
theorem resurrect_per_entry_behavior_witness :
    resurrect true [savedRecA] [] (fun _ => true) (fun _ => some 99) 5 =
      [] ++ [mkProcessInfo savedRecA.name savedRecA.script
        { instances := some savedRecA.instances, env := some savedRecA.env }
        none (generateId []) 99 5] :=
  (resurrect_per_entry_behavior).2.2 savedRecA [] (fun _ => true)
    (fun _ => some 99) 99 5 rfl rfl (fun p hp => absurd hp (List.not_mem_nil p))

/-- C8: during a poll, an online record whose process is alive but whose
CPU/memory query fails or yields no data row is returned entirely unchanged:
previous cpu and memory values (and everything else) are kept, and since
`pollRecord` is total, the failure never escalates; the record passes through
a full `monitorProcesses` pass intact. -/
theorem poll_usage_failure_keeps_metrics (E : PollEnv) (p : ProcessRecord)
    (pid : Nat) (hstat : p.status = Status.online) (hpid : p.pid = some pid)
    (halive : E.alive pid = true) (husage : E.usage pid = none) :
    pollRecord E p = p ∧ ∀ reg, p ∈ reg → p ∈ monitorProcesses E reg := by
  have h1 : pollRecord E p = p := by
    simp [pollRecord, hstat, hpid, pidAlive, halive, husage]
  refine ⟨h1, fun reg hp => ?_⟩
  unfold monitorProcesses
  exact List.mem_map.mpr ⟨p, hp, h1⟩

/-- C8, witness: a poll whose usage query always fails leaves the online
record untouched. -/
theorem poll_usage_failure_keeps_metrics_witness :
    pollRecord { alive := fun _ => true, usage := fun _ => none, now := 9 }
      savedRecA = savedRecA :=
  (poll_usage_failure_keeps_metrics
    { alive := fun _ => true, usage := fun _ => none, now := 9 }
    savedRecA 10 rfl rfl rfl rfl).1

/-- C10: every successful start leaves the original registry as the exact
prefix of the new one (same records, values, and order) and appends exactly
one record at the end. -/
theorem start_appends_single_record (reg : Registry) (name script : String)
    (o : StartOptions) (eid : Option Nat) (se : Bool) (sp : Option Nat)
    (now : Nat) (reg' : Registry) (i : Nat)
    (h : startGTR reg name script o eid se sp now = .ok (reg', i)) :
    reg'.dropLast = reg ∧ reg'.length = reg.length + 1 := by
  obtain ⟨-, -, pid, -, hreg1, -, -⟩ := startGTR_ok_shape h
  subst hreg1
  exact ⟨List.dropLast_concat, by simp⟩

/-- C10, witness: a start on the empty registry yields a one-record registry
whose dropLast is empty. -/
theorem start_appends_single_record_witness :
    ([mkProcessInfo "b" "/b.js" {} none 0 6 3] : Registry).dropLast = [] ∧
    ([mkProcessInfo "b" "/b.js" {} none 0 6 3] : Registry).length =
      ([] : Registry).length + 1 :=
  start_appends_single_record [] "b" "/b.js" {} none true (some 6) 3
    [mkProcessInfo "b" "/b.js" {} none 0 6 3] 0 (by rfl)

end GTRManager
